import Mathlib

/-!
Verification development for the ray-tracing kernel of a voxel-style
renderer (BVH acceleration structure, slab-method box intersection,
recursive shading integrator, orbital camera).

Modelling conventions:
* `f32` arithmetic is modelled over `ℚ` (exact arithmetic).  The slab
  method divides by direction components, so the `ℚ` model is faithful
  to the floating-point code exactly when every direction component is
  nonzero; theorems about the slab method carry those hypotheses.
* A separate small model `F` of IEEE special values (infinities, NaN,
  with Rust `f32::min`/`f32::max` NaN-dropping semantics) is used for
  the zero-direction-component edge cases of `AABB::intersect`.
* Trait objects (`dyn RayIntersect`) are modelled as records of
  functions (`Obj`).  External collaborators (texture sampling,
  `Vector3::normalized`, `Vector3::length`, `f32::powf`) are fields of
  an environment record `MathEnv`; the kernel theorems hold for every
  environment.
* Recursive Rust functions whose termination is by a data invariant
  (BVH traversal, `build_recursive`) or by a depth guard (`cast_ray`)
  are embedded with an explicit fuel argument; the wrappers supply
  enough fuel, so the embedding agrees with the source on every input
  on which the source terminates.
-/

/-- 3-component vector (raylib `Vector3`), components as exact rationals. -/
structure Vec3 where
  x : ℚ
  y : ℚ
  z : ℚ
deriving DecidableEq, Repr

namespace Vec3

def add (a b : Vec3) : Vec3 := ⟨a.x + b.x, a.y + b.y, a.z + b.z⟩

def sub (a b : Vec3) : Vec3 := ⟨a.x - b.x, a.y - b.y, a.z - b.z⟩

def smul (a : Vec3) (k : ℚ) : Vec3 := ⟨a.x * k, a.y * k, a.z * k⟩

def dot (a b : Vec3) : ℚ := a.x * b.x + a.y * b.y + a.z * b.z

def neg (a : Vec3) : Vec3 := ⟨-a.x, -a.y, -a.z⟩

def zero : Vec3 := ⟨0, 0, 0⟩

/-- Componentwise product (used for color blending). -/
def cmul (a b : Vec3) : Vec3 := ⟨a.x * b.x, a.y * b.y, a.z * b.z⟩

end Vec3

/-- `material.rs`: physical/visual properties of a material. -/
structure Material where
  diffuse : Vec3
  albedo0 : ℚ
  albedo1 : ℚ
  specular : ℚ
  transparency : ℚ
  reflectivity : ℚ
  emissive : Vec3
  texture_path : Option String
deriving DecidableEq, Repr

namespace Material

/-- `Material::black`: default black material for empty intersections. -/
def black : Material :=
  { diffuse := Vec3.zero, albedo0 := 0, albedo1 := 0, specular := 0,
    transparency := 0, reflectivity := 0, emissive := Vec3.zero,
    texture_path := none }

end Material

/-- `ray_intersect.rs`: result of a ray-object intersection. -/
structure Intersect where
  point : Vec3
  normal : Vec3
  distance : ℚ
  is_intersecting : Bool
  material : Material
  u : ℚ
  v : ℚ
deriving DecidableEq, Repr

namespace Intersect

/-- `Intersect::new` (sets `is_intersecting := true`). -/
def mk' (point normal : Vec3) (distance : ℚ) (material : Material)
    (u v : ℚ) : Intersect :=
  { point := point, normal := normal, distance := distance,
    is_intersecting := true, material := material, u := u, v := v }

/-- `Intersect::empty`: the canonical no-intersection sentinel. -/
def empty : Intersect :=
  { point := Vec3.zero, normal := Vec3.zero, distance := 0,
    is_intersecting := false, material := Material.black, u := 0, v := 0 }

end Intersect

/-- `ray_intersect.rs`: axis-aligned bounding box. -/
structure AABB where
  min : Vec3
  max : Vec3
deriving DecidableEq, Repr

namespace AABB

/-- `AABB::union`: componentwise min/max of two boxes. -/
def union (a b : AABB) : AABB :=
  { min := ⟨Min.min a.min.x b.min.x, Min.min a.min.y b.min.y, Min.min a.min.z b.min.z⟩,
    max := ⟨Max.max a.max.x b.max.x, Max.max a.max.y b.max.y, Max.max a.max.z b.max.z⟩ }

/-- `AABB::center`: midpoint, the BVH build sort key. -/
def center (a : AABB) : Vec3 := (a.min.add a.max).smul (1/2)

/-- `AABB::intersect`: slab method over exact rationals.  `1.0 /
ray_direction` is modelled as `ℚ` inverse; faithful to the `f32` code
whenever all three direction components are nonzero (see `F` below for
the zero-component special-value behaviour). -/
def intersect (a : AABB) (ray_origin ray_direction : Vec3) : Bool :=
  let inv_dir : Vec3 := ⟨ray_direction.x⁻¹, ray_direction.y⁻¹, ray_direction.z⁻¹⟩
  let t1 := (a.min.x - ray_origin.x) * inv_dir.x
  let t2 := (a.max.x - ray_origin.x) * inv_dir.x
  let t3 := (a.min.y - ray_origin.y) * inv_dir.y
  let t4 := (a.max.y - ray_origin.y) * inv_dir.y
  let t5 := (a.min.z - ray_origin.z) * inv_dir.z
  let t6 := (a.max.z - ray_origin.z) * inv_dir.z
  let tmin := Max.max (Max.max (Min.min t1 t2) (Min.min t3 t4)) (Min.min t5 t6)
  let tmax := Min.min (Min.min (Max.max t1 t2) (Max.max t3 t4)) (Max.max t5 t6)
  decide (0 ≤ tmax ∧ tmin ≤ tmax)

end AABB

/-- The point `origin + direction * t` on a ray. -/
def rayAt (o d : Vec3) (t : ℚ) : Vec3 := o.add (d.smul t)

/-- Membership in the closed box. -/
def inAABB (a : AABB) (p : Vec3) : Prop :=
  a.min.x ≤ p.x ∧ p.x ≤ a.max.x ∧
  a.min.y ≤ p.y ∧ p.y ≤ a.max.y ∧
  a.min.z ≤ p.z ∧ p.z ≤ a.max.z

instance (a : AABB) (p : Vec3) : Decidable (inAABB a p) := by
  unfold inAABB; infer_instance

/-- A ray analytically meets the closed box at some parameter `t ≥ 0`. -/
def analyticallyHits (a : AABB) (o d : Vec3) : Prop :=
  ∃ t : ℚ, 0 ≤ t ∧ inAABB a (rayAt o d t)

/-!  A minimal model of `f32` special values for the slab method.

Finite values are exact rationals (no rounding is modelled; at the
concrete inputs used below every `f32` operation is exact).  The
reciprocal of `+0.0` is `+∞`, `0 · ±∞ = NaN`, and Rust's `f32::min` /
`f32::max` return the other operand when one argument is NaN.  IEEE
comparisons involving NaN are false. -/
inductive F where
  | fin (q : ℚ)
  | pinf
  | minf
  | nan
deriving DecidableEq, Repr

namespace F

/-- `1.0 / x` for a finite `f32` value `x` (the `+0.0` case gives `+∞`). -/
def finv (q : ℚ) : F := if q = 0 then pinf else fin q⁻¹

/-- Product of a finite value with a possibly-special value. -/
def fmul (q : ℚ) : F → F
  | fin r => fin (q * r)
  | pinf => if 0 < q then pinf else if q < 0 then minf else nan
  | minf => if 0 < q then minf else if q < 0 then pinf else nan
  | nan => nan

/-- Rust `f32::min`: if one argument is NaN, the other is returned. -/
def fmin : F → F → F
  | nan, b => b
  | a, nan => a
  | minf, _ => minf
  | _, minf => minf
  | pinf, b => b
  | a, pinf => a
  | fin p, fin q => fin (Min.min p q)

/-- Rust `f32::max`: if one argument is NaN, the other is returned. -/
def fmax : F → F → F
  | nan, b => b
  | a, nan => a
  | pinf, _ => pinf
  | _, pinf => pinf
  | minf, b => b
  | a, minf => a
  | fin p, fin q => fin (Max.max p q)

/-- IEEE `x >= 0.0` (false on NaN). -/
def fge0 : F → Bool
  | fin q => decide (0 ≤ q)
  | pinf => true
  | minf => false
  | nan => false

/-- IEEE `a <= b` (false when either side is NaN). -/
def fle : F → F → Bool
  | nan, _ => false
  | _, nan => false
  | minf, _ => true
  | _, minf => false
  | _, pinf => true
  | pinf, _ => false
  | fin p, fin q => decide (p ≤ q)

end F

/-- `AABB::intersect` with `f32` special values made explicit: the box
and the ray have finite (exactly representable) coordinates, but the
reciprocals of zero direction components are infinities and `0 · ∞`
products are NaN, exactly as in the `f32` source. -/
def AABB.intersectF (a : AABB) (ray_origin ray_direction : Vec3) : Bool :=
  let ix := F.finv ray_direction.x
  let iy := F.finv ray_direction.y
  let iz := F.finv ray_direction.z
  let t1 := F.fmul (a.min.x - ray_origin.x) ix
  let t2 := F.fmul (a.max.x - ray_origin.x) ix
  let t3 := F.fmul (a.min.y - ray_origin.y) iy
  let t4 := F.fmul (a.max.y - ray_origin.y) iy
  let t5 := F.fmul (a.min.z - ray_origin.z) iz
  let t6 := F.fmul (a.max.z - ray_origin.z) iz
  let tmin := F.fmax (F.fmax (F.fmin t1 t2) (F.fmin t3 t4)) (F.fmin t5 t6)
  let tmax := F.fmin (F.fmin (F.fmax t1 t2) (F.fmax t3 t4)) (F.fmax t5 t6)
  F.fge0 tmax && F.fle tmin tmax

/-- `cube.rs`: axis-aligned cube with cached min/max corners. -/
structure Cube where
  center : Vec3
  size : ℚ
  material : Material
  min : Vec3
  max : Vec3
deriving DecidableEq, Repr

namespace Cube

/-- `Cube::new`: caches `center ± half_size`. -/
def new (center : Vec3) (size : ℚ) (material : Material) : Cube :=
  let half_size := size / 2
  { center := center, size := size, material := material,
    min := center.sub ⟨half_size, half_size, half_size⟩,
    max := center.add ⟨half_size, half_size, half_size⟩ }

/-- Rust `f32::clamp`. -/
def qclamp (x lo hi : ℚ) : ℚ := Min.min (Max.max x lo) hi

/-- `Cube::get_uv`: face-local UV coordinates from the hit normal. -/
def get_uv (c : Cube) (point normal : Vec3) : ℚ × ℚ :=
  let half_size := c.size / 2
  let lp := point.sub c.center
  let uv : ℚ × ℚ :=
    if 9/10 < |normal.x| then
      ((lp.z / half_size + 1) / 2, (lp.y / half_size + 1) / 2)
    else if 9/10 < |normal.y| then
      ((lp.x / half_size + 1) / 2, (lp.z / half_size + 1) / 2)
    else
      ((lp.x / half_size + 1) / 2, (lp.y / half_size + 1) / 2)
  (qclamp uv.1 0 1, qclamp uv.2 0 1)

/-- The slab entry distance `tmin` computed by `Cube::ray_intersect`. -/
def tminOf (c : Cube) (ray_origin ray_direction : Vec3) : ℚ :=
  let t1 := (c.min.x - ray_origin.x) * ray_direction.x⁻¹
  let t2 := (c.max.x - ray_origin.x) * ray_direction.x⁻¹
  let t3 := (c.min.y - ray_origin.y) * ray_direction.y⁻¹
  let t4 := (c.max.y - ray_origin.y) * ray_direction.y⁻¹
  let t5 := (c.min.z - ray_origin.z) * ray_direction.z⁻¹
  let t6 := (c.max.z - ray_origin.z) * ray_direction.z⁻¹
  Max.max (Max.max (Min.min t1 t2) (Min.min t3 t4)) (Min.min t5 t6)

/-- The slab exit distance `tmax` computed by `Cube::ray_intersect`. -/
def tmaxOf (c : Cube) (ray_origin ray_direction : Vec3) : ℚ :=
  let t1 := (c.min.x - ray_origin.x) * ray_direction.x⁻¹
  let t2 := (c.max.x - ray_origin.x) * ray_direction.x⁻¹
  let t3 := (c.min.y - ray_origin.y) * ray_direction.y⁻¹
  let t4 := (c.max.y - ray_origin.y) * ray_direction.y⁻¹
  let t5 := (c.min.z - ray_origin.z) * ray_direction.z⁻¹
  let t6 := (c.max.z - ray_origin.z) * ray_direction.z⁻¹
  Min.min (Min.min (Max.max t1 t2) (Max.max t3 t4)) (Max.max t5 t6)

/-- `Cube::ray_intersect` (slab method, normal from face proximity). -/
def ray_intersect (c : Cube) (ray_origin ray_direction : Vec3) : Intersect :=
  let tmin := tminOf c ray_origin ray_direction
  let tmax := tmaxOf c ray_origin ray_direction
  if tmax < 0 ∨ tmin > tmax then Intersect.empty
  else
    let t := if 0 < tmin then tmin else tmax
    if t < 0 then Intersect.empty
    else
      let point := ray_origin.add (ray_direction.smul t)
      let lp := point.sub c.center
      let half_size := c.size / 2
      let epsilon : ℚ := 1/1000
      let normal : Vec3 :=
        if |lp.x - half_size| < epsilon then ⟨1, 0, 0⟩
        else if |lp.x + half_size| < epsilon then ⟨-1, 0, 0⟩
        else if |lp.y - half_size| < epsilon then ⟨0, 1, 0⟩
        else if |lp.y + half_size| < epsilon then ⟨0, -1, 0⟩
        else if |lp.z - half_size| < epsilon then ⟨0, 0, 1⟩
        else ⟨0, 0, -1⟩
      let uv := get_uv c point normal
      Intersect.mk' point normal t c.material uv.1 uv.2

end Cube

/-- A `dyn RayIntersect` trait object: a record of its two methods. -/
structure Obj where
  ray_intersect : Vec3 → Vec3 → Intersect
  get_bounds : AABB

/-- Modelled from the spec: `Cube::get_bounds` is declared by the
`RayIntersect` trait but its implementation is absent from the sources;
per the spec a cube's bounds are its precomputed min/max corners
("precomputed min/max corners", "compute each primitive's AABB"). -/
def Cube.get_bounds (c : Cube) : AABB := ⟨c.min, c.max⟩

/-- A cube viewed as a trait object. -/
def Cube.toObj (c : Cube) : Obj := ⟨c.ray_intersect, c.get_bounds⟩

/-- `light.rs`: point light (color components are `u8`). -/
structure Light where
  position : Vec3
  colorR : ℕ
  colorG : ℕ
  colorB : ℕ
  intensity : ℚ

/-- `ray_intersect.rs`: one BVH node. -/
structure BVHNode where
  bounds : AABB
  left : Option ℕ
  right : Option ℕ
  object_index : Option ℕ
deriving DecidableEq, Repr

/-- `ray_intersect.rs`: the BVH is a vector of nodes. -/
structure BVH where
  nodes : List BVHNode
deriving DecidableEq, Repr

/-- Insert into a sorted list, before the first strictly greater key:
together with `sortByKey` this computes the unique stable ascending
sort, which is what Rust's stable `sort_by` with a total-order
comparator (`partial_cmp(..).unwrap()`) produces. -/
def insertByKey (key : (AABB × ℕ) → ℚ) (a : AABB × ℕ) :
    List (AABB × ℕ) → List (AABB × ℕ)
  | [] => [a]
  | b :: l => if key a ≤ key b then a :: b :: l else b :: insertByKey key a l

/-- Stable ascending sort by a rational key (see `insertByKey`). -/
def sortByKey (key : (AABB × ℕ) → ℚ) : List (AABB × ℕ) → List (AABB × ℕ)
  | [] => []
  | a :: l => insertByKey key a (sortByKey key l)

theorem length_insertByKey (key : (AABB × ℕ) → ℚ) (a : AABB × ℕ)
    (l : List (AABB × ℕ)) : (insertByKey key a l).length = l.length + 1 := by
  induction l with
  | nil => rfl
  | cons b l ih =>
    simp only [insertByKey]
    by_cases h : key a ≤ key b <;> simp [h, ih]

theorem length_sortByKey (key : (AABB × ℕ) → ℚ) (l : List (AABB × ℕ)) :
    (sortByKey key l).length = l.length := by
  induction l with
  | nil => rfl
  | cons a l ih => simp [sortByKey, length_insertByKey, ih]

/-- `BVH::build_recursive`, with an explicit fuel argument standing for
the structural-recursion bound (each recursive call strictly decreases
the slice length, so `fuel := primitives.length` always suffices; the
wrapper `BVH.build` supplies it).  The Rust code indexes
`primitives[0]` and so is never called on an empty slice; the
empty-slice equation is therefore irrelevant filler. -/
def buildRec : ℕ → List (AABB × ℕ) → List BVHNode → ℕ → List BVHNode × ℕ
  | 0, _, nodes, _ => (nodes, 0)
  | _ + 1, [], nodes, _ => (nodes, 0)
  | fuel + 1, p :: ps, nodes, depth =>
    let prims := p :: ps
    let bounds := prims.foldl (fun acc pr => acc.union pr.1) p.1
    if prims.length = 1 ∨ 32 < depth then
      (nodes ++ [⟨bounds, none, none, some p.2⟩], nodes.length)
    else
      let extent := bounds.max.sub bounds.min
      let axis : ℕ :=
        if extent.x > extent.y ∧ extent.x > extent.z then 0
        else if extent.y > extent.z then 1 else 2
      let key : (AABB × ℕ) → ℚ := fun pr =>
        if axis = 0 then pr.1.center.x
        else if axis = 1 then pr.1.center.y else pr.1.center.z
      let sorted := sortByKey key prims
      let mid := sorted.length / 2
      let lres := buildRec fuel (sorted.take mid) nodes (depth + 1)
      let rres := buildRec fuel (sorted.drop mid) lres.1 (depth + 1)
      (rres.1 ++ [⟨bounds, some lres.2, some rres.2, none⟩], rres.1.length)

/-- `BVH::build`. -/
def BVH.build (objects : List Obj) : BVH :=
  if objects.isEmpty then ⟨[]⟩
  else
    let primitives := objects.enum.map fun p => (p.2.get_bounds, p.1)
    ⟨(buildRec primitives.length primitives [] 0).1⟩

/-- `BVH::intersect_recursive`, with fuel standing for the recursion
depth of the Rust source (children of nodes produced by
`build_recursive` have strictly smaller indices, so any fuel exceeding
the node count reproduces the source exactly; the wrapper supplies
`nodes.length + 1`).  The running state is `(best_intersect,
best_distance)` with `best_distance : WithTop ℚ` standing for the
`f32::INFINITY` initial value. -/
def intersectRec (bvh : BVH) (objects : List Obj) (ray_origin ray_direction : Vec3) :
    ℕ → ℕ → Intersect × WithTop ℚ → Intersect × WithTop ℚ
  | 0, _, st => st
  | fuel + 1, node_index, st =>
    match bvh.nodes.get? node_index with
    | none => st
    | some node =>
      if node.bounds.intersect ray_origin ray_direction then
        match node.object_index with
        | some obj_idx =>
          match objects.get? obj_idx with
          | some obj =>
            let inter := obj.ray_intersect ray_origin ray_direction
            if inter.is_intersecting ∧ (inter.distance : WithTop ℚ) < st.2 then
              (inter, (inter.distance : WithTop ℚ))
            else st
          | none => st
        | none =>
          let st1 :=
            match node.left with
            | some l => intersectRec bvh objects ray_origin ray_direction fuel l st
            | none => st
          match node.right with
          | some r => intersectRec bvh objects ray_origin ray_direction fuel r st1
          | none => st1
      else st

/-- `BVH::intersect`: note the traversal starts at node index `0`,
exactly as in the source. -/
def BVH.intersect (bvh : BVH) (ray_origin ray_direction : Vec3)
    (objects : List Obj) : Intersect :=
  if bvh.nodes.isEmpty then Intersect.empty
  else
    (intersectRec bvh objects ray_origin ray_direction
      (bvh.nodes.length + 1) 0 (Intersect.empty, (⊤ : WithTop ℚ))).1

/-- The brute-force reference of the claim: a linear scan calling
`ray_intersect` on every primitive and keeping the closest intersecting
hit. -/
def bruteForce (objects : List Obj) (ray_origin ray_direction : Vec3) : Intersect :=
  objects.foldl
    (fun best obj =>
      let i := obj.ray_intersect ray_origin ray_direction
      if i.is_intersecting ∧ (¬ best.is_intersecting ∨ i.distance < best.distance)
      then i else best)
    Intersect.empty

/-- `main.rs:24`: `ORIGIN_BIAS`. -/
def ORIGIN_BIAS : ℚ := 1/10000

/-- `main.rs:25`: `MAX_DEPTH`. -/
def MAX_DEPTH : ℕ := 2

/-- External collaborators of the shading integrator, abstracted as an
environment: raylib `Vector3::normalized` and `Vector3::length`,
`f32::powf`, and the global texture manager's `sample`.  Every theorem
about the integrator holds for every environment. -/
structure MathEnv where
  normalize : Vec3 → Vec3
  length : Vec3 → ℚ
  powf : ℚ → ℚ → ℚ
  sample : String → ℚ → ℚ → Vec3

/-- `main.rs:300` `sky_color`: vertical gradient, separate palettes for
the upper world and the nether. -/
def sky_color (env : MathEnv) (dir : Vec3) (is_nether : Bool) : Vec3 :=
  let d := env.normalize dir
  let t := (d.y + 1) * (1/2)
  if is_nether then
    let dark_red : Vec3 := ⟨15/100, 1/100, 1/100⟩
    let deep_crimson : Vec3 := ⟨25/100, 3/100, 3/100⟩
    if t < 1/2 then dark_red
    else
      let k := (t - 1/2) / (1/2)
      (dark_red.smul (1 - k)).add (deep_crimson.smul k)
  else
    let grass_green : Vec3 := ⟨4/10, 7/10, 4/10⟩
    let sky_blue : Vec3 := ⟨5/10, 7/10, 1⟩
    if t < 45/100 then grass_green
    else if t < 55/100 then
      let k := (t - 45/100) / (1/10)
      (grass_green.smul (1 - k)).add (sky_blue.smul k)
    else sky_blue

/-- `main.rs:330` `offset_origin`: bias the secondary-ray origin along
the normal, away from self-intersection. -/
def offset_origin (intersect : Intersect) (direction : Vec3) : Vec3 :=
  let offset := intersect.normal.smul ORIGIN_BIAS
  if direction.dot intersect.normal < 0 then intersect.point.sub offset
  else intersect.point.add offset

/-- `main.rs:340` `reflect`. -/
def reflect (incident normal : Vec3) : Vec3 :=
  incident.sub ((normal.smul 2).smul (incident.dot normal))

/-- `main.rs:344` `cast_shadow`: returns the shadow intensity `0.6`
when the shadow ray toward the light hits anything strictly closer
than the light, else `0.0`. -/
def cast_shadow (env : MathEnv) (intersect : Intersect) (light : Light)
    (bvh : BVH) (objects : List Obj) : ℚ :=
  let light_dir := env.normalize (light.position.sub intersect.point)
  let light_distance := env.length (light.position.sub intersect.point)
  let shadow_ray_origin := offset_origin intersect light_dir
  let shadow_intersect := bvh.intersect shadow_ray_origin light_dir objects
  if shadow_intersect.is_intersecting ∧ shadow_intersect.distance < light_distance
  then 6/10 else 0

/-- `main.rs:362` `cast_ray`, with fuel standing for the remaining
recursion depth: the wrapper `cast_ray` passes `MAX_DEPTH + 1 - depth`,
and since the single recursive call is guarded by `depth < MAX_DEPTH`
and passes `depth + 1`, the fuel never runs out on a call reachable
from the wrapper, so this equals the Rust function everywhere. -/
def castRayF (env : MathEnv) (bvh : BVH) (objects : List Obj)
    (lights : List Light) :
    ℕ → Vec3 → Vec3 → ℕ → Vec3
  | 0, ray_origin, ray_direction, _ =>
      sky_color env ray_direction (decide (ray_origin.y < 0))
  | fuel + 1, ray_origin, ray_direction, depth =>
    if MAX_DEPTH < depth then
      sky_color env ray_direction (decide (ray_origin.y < 0))
    else
      let intersect := bvh.intersect ray_origin ray_direction objects
      if intersect.is_intersecting = false then
        sky_color env ray_direction (decide (ray_origin.y < 0))
      else
        let diffuse_color :=
          match intersect.material.texture_path with
          | some texture_name => env.sample texture_name intersect.u intersect.v
          | none => intersect.material.diffuse
        let view_dir := env.normalize (ray_origin.sub intersect.point)
        let ambient : Vec3 :=
          if intersect.point.y < 0 then ⟨5/100, 1/100, 1/100⟩
          else ⟨12/100, 12/100, 15/100⟩
        let final0 := Vec3.zero.add (diffuse_color.cmul ambient)
        let final1 :=
          if 0 < env.length intersect.material.emissive then
            final0.add (intersect.material.emissive.smul (1/2))
          else final0
        let final2 := lights.foldl
          (fun acc light =>
            let light_dir := env.normalize (light.position.sub intersect.point)
            let diffuse_dot := intersect.normal.dot light_dir
            if diffuse_dot ≤ 0 then acc
            else
              let distance := env.length (light.position.sub intersect.point)
              let attenuation :=
                1 / (1 + 5/100 * distance + 1/100 * distance * distance)
              let shadow_intensity := cast_shadow env intersect light bvh objects
              let light_intensity := light.intensity * (1 - shadow_intensity) * attenuation
              let light_color_v3 : Vec3 :=
                ⟨(light.colorR : ℚ) / 255, (light.colorG : ℚ) / 255, (light.colorB : ℚ) / 255⟩
              let diffuse :=
                ((diffuse_color.cmul light_color_v3).smul diffuse_dot).smul light_intensity
              let reflect_dir := reflect light_dir.neg intersect.normal
              let specular_intensity :=
                env.powf (Max.max (view_dir.dot reflect_dir) 0)
                  intersect.material.specular * light_intensity
              let specular := light_color_v3.smul specular_intensity
              acc.add ((diffuse.smul intersect.material.albedo0).add
                       (specular.smul intersect.material.albedo1)))
          final1
        let reflectivity := intersect.material.reflectivity
        if 5/100 < reflectivity ∧ depth < MAX_DEPTH then
          let reflect_dir := env.normalize (reflect ray_direction intersect.normal)
          let reflect_origin := offset_origin intersect reflect_dir
          let reflect_color :=
            castRayF env bvh objects lights fuel reflect_origin reflect_dir (depth + 1)
          (final2.smul (1 - reflectivity)).add (reflect_color.smul reflectivity)
        else final2

/-- `main.rs:362` `cast_ray` (wrapper supplying the fuel). -/
def cast_ray (env : MathEnv) (bvh : BVH) (objects : List Obj)
    (lights : List Light) (ray_origin ray_direction : Vec3) (depth : ℕ) : Vec3 :=
  castRayF env bvh objects lights (MAX_DEPTH + 1 - depth) ray_origin ray_direction depth

/-- Number of `cast_ray` invocations performed for one call (the call
itself plus its recursive descendants), same recursion structure as
`castRayF`. -/
def castRayCountF (env : MathEnv) (bvh : BVH) (objects : List Obj)
    (lights : List Light) :
    ℕ → Vec3 → Vec3 → ℕ → ℕ
  | 0, _, _, _ => 1
  | fuel + 1, ray_origin, ray_direction, depth =>
    if MAX_DEPTH < depth then 1
    else
      let intersect := bvh.intersect ray_origin ray_direction objects
      if intersect.is_intersecting = false then 1
      else
        if 5/100 < intersect.material.reflectivity ∧ depth < MAX_DEPTH then
          let reflect_dir := env.normalize (reflect ray_direction intersect.normal)
          let reflect_origin := offset_origin intersect reflect_dir
          1 + castRayCountF env bvh objects lights fuel reflect_origin reflect_dir (depth + 1)
        else 1

/-- Ray count for `cast_ray` at a given depth. -/
def cast_ray_count (env : MathEnv) (bvh : BVH) (objects : List Obj)
    (lights : List Light) (ray_origin ray_direction : Vec3) (depth : ℕ) : ℕ :=
  castRayCountF env bvh objects lights (MAX_DEPTH + 1 - depth) ray_origin ray_direction depth

/-!  Orbital camera (`camera.rs`), modelled over `ℝ` since it uses
trigonometric functions and square roots. -/

/-- raylib `Vector3` over exact reals, for the camera. -/
structure Vec3R where
  x : ℝ
  y : ℝ
  z : ℝ

namespace Vec3R

def add (a b : Vec3R) : Vec3R := ⟨a.x + b.x, a.y + b.y, a.z + b.z⟩

def sub (a b : Vec3R) : Vec3R := ⟨a.x - b.x, a.y - b.y, a.z - b.z⟩

def smul (a : Vec3R) (k : ℝ) : Vec3R := ⟨a.x * k, a.y * k, a.z * k⟩

def cross (a b : Vec3R) : Vec3R :=
  ⟨a.y * b.z - a.z * b.y, a.z * b.x - a.x * b.z, a.x * b.y - a.y * b.x⟩

noncomputable def length (a : Vec3R) : ℝ := Real.sqrt (a.x ^ 2 + a.y ^ 2 + a.z ^ 2)

/-- raylib `Vector3::normalized`. -/
noncomputable def normalized (a : Vec3R) : Vec3R := a.smul (length a)⁻¹

def zero : Vec3R := ⟨0, 0, 0⟩

end Vec3R

/-- `f32::atan2` (libm); only its type matters for the theorems below,
but we give the standard piecewise-arctangent definition. -/
noncomputable def atan2R (y x : ℝ) : ℝ :=
  if 0 < x then Real.arctan (y / x)
  else if x < 0 then
    (if 0 ≤ y then Real.arctan (y / x) + Real.pi else Real.arctan (y / x) - Real.pi)
  else if 0 < y then Real.pi / 2
  else if y < 0 then -(Real.pi / 2)
  else 0

/-- Rust `f32::clamp`. -/
noncomputable def rclamp (x lo hi : ℝ) : ℝ := Min.min (Max.max x lo) hi

/-- `camera.rs`: orbital camera state. -/
structure Camera where
  eye : Vec3R
  center : Vec3R
  up : Vec3R
  forward : Vec3R
  right : Vec3R

namespace Camera

/-- `Camera::update_basis_vectors`. -/
noncomputable def update_basis_vectors (c : Camera) : Camera :=
  let forward := (c.center.sub c.eye).normalized
  let right := (forward.cross c.up).normalized
  let up := right.cross forward
  { c with forward := forward, right := right, up := up }

/-- `Camera::new`. -/
noncomputable def new (eye center up : Vec3R) : Camera :=
  update_basis_vectors
    { eye := eye, center := center, up := up,
      forward := Vec3R.zero, right := Vec3R.zero }

/-- `Camera::orbit`: spherical-coordinate rotation of `eye` around
`center`, with the pitch clamped to `[-1.5, 1.5]`. -/
noncomputable def orbit (c : Camera) (yaw pitch : ℝ) : Camera :=
  let relative_pos := c.eye.sub c.center
  let radius := relative_pos.length
  let current_yaw := atan2R relative_pos.z relative_pos.x
  let current_pitch := Real.arcsin (relative_pos.y / radius)
  let new_yaw := current_yaw + yaw
  let new_pitch := rclamp (current_pitch + pitch) (-(3/2)) (3/2)
  let cos_pitch := Real.cos new_pitch
  let new_relative_pos : Vec3R :=
    ⟨radius * cos_pitch * Real.cos new_yaw,
     radius * Real.sin new_pitch,
     radius * cos_pitch * Real.sin new_yaw⟩
  update_basis_vectors { c with eye := c.center.add new_relative_pos }

/-- `Camera::zoom`. -/
noncomputable def zoom (c : Camera) (amount : ℝ) : Camera :=
  let forward := (c.center.sub c.eye).normalized
  update_basis_vectors { c with eye := c.eye.add (forward.smul amount) }

end Camera

/-- The pitch angle of the eye relative to the center: `asin` of the
eye-relative `y` component divided by the orbit radius. -/
noncomputable def pitchAngle (c : Camera) : ℝ :=
  Real.arcsin ((c.eye.sub c.center).y / (c.eye.sub c.center).length)

/-- A sequence of `orbit` calls, applied left to right. -/
noncomputable def orbitSeq (c : Camera) (l : List (ℝ × ℝ)) : Camera :=
  l.foldl (fun cam yp => cam.orbit yp.1 yp.2) c

theorem Vec3R.ext3 (a b : Vec3R) (h1 : a.x = b.x) (h2 : a.y = b.y)
    (h3 : a.z = b.z) : a = b := by
  cases a; cases b; simp_all

theorem Vec3R.add_sub_cancel3 (a v : Vec3R) : (a.add v).sub a = v := by
  cases a; cases v
  simp only [Vec3R.add, Vec3R.sub, Vec3R.mk.injEq]
  refine ⟨by ring, by ring, by ring⟩

theorem Vec3R.length_zero3 : (Vec3R.mk 0 0 0).length = 0 := by
  simp [Vec3R.length]

theorem Vec3R.sub_self3 (a : Vec3R) : a.sub a = ⟨0, 0, 0⟩ := by
  cases a
  simp only [Vec3R.sub, Vec3R.mk.injEq]
  refine ⟨by ring, by ring, by ring⟩

theorem Vec3R.length_pos_of_ne (a b : Vec3R) (h : a ≠ b) :
    0 < (a.sub b).length := by
  have hc : (a.sub b).x ≠ 0 ∨ (a.sub b).y ≠ 0 ∨ (a.sub b).z ≠ 0 := by
    by_contra hc
    push_neg at hc
    obtain ⟨h1, h2, h3⟩ := hc
    apply h
    cases a; cases b
    simp only [Vec3R.sub] at h1 h2 h3
    exact Vec3R.ext3 _ _ (by linarith [h1]) (by linarith [h2]) (by linarith [h3])
  unfold Vec3R.length
  apply Real.sqrt_pos.mpr
  rcases hc with h1 | h1 | h1 <;>
    nlinarith [mul_self_pos.mpr h1, sq_nonneg (a.sub b).x, sq_nonneg (a.sub b).y,
      sq_nonneg (a.sub b).z]

/-- The length of the spherical-coordinate reconstruction is exactly
the radius (in exact real arithmetic). -/
theorem length_spherical (r np ny : ℝ) (hr : 0 ≤ r) :
    Vec3R.length ⟨r * Real.cos np * Real.cos ny, r * Real.sin np,
      r * Real.cos np * Real.sin ny⟩ = r := by
  unfold Vec3R.length
  have key : (r * Real.cos np * Real.cos ny) ^ 2 + (r * Real.sin np) ^ 2 +
      (r * Real.cos np * Real.sin ny) ^ 2 = r ^ 2 := by
    have h1 := Real.sin_sq_add_cos_sq ny
    have h2 := Real.sin_sq_add_cos_sq np
    linear_combination (r ^ 2 * Real.cos np ^ 2) * h1 + r ^ 2 * h2
  rw [show ((Vec3R.mk (r * Real.cos np * Real.cos ny) (r * Real.sin np)
      (r * Real.cos np * Real.sin ny)).x ^ 2 +
      (Vec3R.mk (r * Real.cos np * Real.cos ny) (r * Real.sin np)
      (r * Real.cos np * Real.sin ny)).y ^ 2 +
      (Vec3R.mk (r * Real.cos np * Real.cos ny) (r * Real.sin np)
      (r * Real.cos np * Real.sin ny)).z ^ 2) = r ^ 2 from key]
  exact Real.sqrt_sq hr

theorem orbit_center_eq (c : Camera) (y p : ℝ) :
    (c.orbit y p).center = c.center := rfl

/-- After `orbit`, the eye-relative position is exactly the
spherical-coordinate reconstruction. -/
theorem orbit_rel (c : Camera) (y p : ℝ) :
    (c.orbit y p).eye.sub (c.orbit y p).center =
      ⟨(c.eye.sub c.center).length *
         Real.cos (rclamp (Real.arcsin ((c.eye.sub c.center).y / (c.eye.sub c.center).length) + p) (-(3/2)) (3/2)) *
         Real.cos (atan2R (c.eye.sub c.center).z (c.eye.sub c.center).x + y),
       (c.eye.sub c.center).length *
         Real.sin (rclamp (Real.arcsin ((c.eye.sub c.center).y / (c.eye.sub c.center).length) + p) (-(3/2)) (3/2)),
       (c.eye.sub c.center).length *
         Real.cos (rclamp (Real.arcsin ((c.eye.sub c.center).y / (c.eye.sub c.center).length) + p) (-(3/2)) (3/2)) *
         Real.sin (atan2R (c.eye.sub c.center).z (c.eye.sub c.center).x + y)⟩ := by
  show (c.center.add _).sub c.center = _
  rw [Vec3R.add_sub_cancel3]

theorem orbit_radius_eq (c : Camera) (y p : ℝ) :
    ((c.orbit y p).eye.sub (c.orbit y p).center).length =
      (c.eye.sub c.center).length := by
  rw [orbit_rel]
  exact length_spherical _ _ _ (Real.sqrt_nonneg _)

theorem orbit_eye_ne_center (c : Camera) (y p : ℝ) (h : c.eye ≠ c.center) :
    (c.orbit y p).eye ≠ (c.orbit y p).center := by
  intro he
  have hl := orbit_radius_eq c y p
  rw [he, Vec3R.sub_self3, Vec3R.length_zero3] at hl
  exact absurd hl.symm (ne_of_gt (Vec3R.length_pos_of_ne _ _ h))

theorem orbitSeq_eye_ne_center (c : Camera) (l : List (ℝ × ℝ))
    (h : c.eye ≠ c.center) : (orbitSeq c l).eye ≠ (orbitSeq c l).center := by
  induction l generalizing c with
  | nil => exact h
  | cons a l ih =>
    show (orbitSeq (c.orbit a.1 a.2) l).eye ≠ _
    exact ih _ (orbit_eye_ne_center c a.1 a.2 h)

theorem three_halves_le_pi_div_two : (3 : ℝ) / 2 ≤ Real.pi / 2 := by
  have := Real.pi_gt_three
  linarith

/-- The pitch angle after one `orbit` call is exactly the clamped
pitch. -/
theorem orbit_pitchAngle (c : Camera) (y p : ℝ) (h : c.eye ≠ c.center) :
    pitchAngle (c.orbit y p) =
      rclamp (Real.arcsin ((c.eye.sub c.center).y / (c.eye.sub c.center).length) + p)
        (-(3/2)) (3/2) := by
  have hr : 0 < (c.eye.sub c.center).length := Vec3R.length_pos_of_ne _ _ h
  set np := rclamp (Real.arcsin ((c.eye.sub c.center).y / (c.eye.sub c.center).length) + p)
      (-(3/2)) (3/2) with hnp
  have hlo : -(3/2) ≤ np := by
    rw [hnp]
    unfold rclamp
    exact le_min (le_max_right _ _) (by norm_num)
  have hhi : np ≤ 3/2 := by
    rw [hnp]
    unfold rclamp
    exact min_le_right _ _
  unfold pitchAngle
  rw [orbit_radius_eq c y p, orbit_rel c y p]
  show Real.arcsin ((c.eye.sub c.center).length * Real.sin np /
    (c.eye.sub c.center).length) = np
  rw [mul_div_cancel_left₀ (Real.sin np) (ne_of_gt hr)]
  exact Real.arcsin_sin (by linarith [three_halves_le_pi_div_two])
    (by linarith [three_halves_le_pi_div_two])

/-- C9: For every camera state with eye distinct from center and any
yaw/pitch deltas, `orbit` leaves the `center` field unchanged and
preserves the eye-to-center distance exactly (in exact real
arithmetic), so `orbit` moves the eye on a fixed sphere around
`center`. -/
theorem camera_orbit_preserves_center_and_radius (cam : Camera) (yaw pitch : ℝ)
    (_h : cam.eye ≠ cam.center) :
    (cam.orbit yaw pitch).center = cam.center ∧
    ((cam.orbit yaw pitch).eye.sub (cam.orbit yaw pitch).center).length =
      (cam.eye.sub cam.center).length :=
  ⟨orbit_center_eq cam yaw pitch, orbit_radius_eq cam yaw pitch⟩

/-- Witness for C9 at a concrete camera and deltas. -/
theorem camera_orbit_preserves_center_and_radius_witness :
    ((Camera.new ⟨1, 0, 0⟩ ⟨0, 0, 0⟩ ⟨0, 1, 0⟩).orbit 1 2).center =
      (Camera.new ⟨1, 0, 0⟩ ⟨0, 0, 0⟩ ⟨0, 1, 0⟩).center ∧
    (((Camera.new ⟨1, 0, 0⟩ ⟨0, 0, 0⟩ ⟨0, 1, 0⟩).orbit 1 2).eye.sub
        ((Camera.new ⟨1, 0, 0⟩ ⟨0, 0, 0⟩ ⟨0, 1, 0⟩).orbit 1 2).center).length =
      ((Camera.new ⟨1, 0, 0⟩ ⟨0, 0, 0⟩ ⟨0, 1, 0⟩).eye.sub
        (Camera.new ⟨1, 0, 0⟩ ⟨0, 0, 0⟩ ⟨0, 1, 0⟩).center).length :=
  camera_orbit_preserves_center_and_radius (Camera.new ⟨1, 0, 0⟩ ⟨0, 0, 0⟩ ⟨0, 1, 0⟩)
    1 2 (fun h => one_ne_zero (congrArg Vec3R.x h))

/-- C7: starting from any camera with eye distinct from center, after
any sequence of `orbit` calls with arbitrary deltas, the pitch angle of
the eye (asin of the eye-relative y component divided by the orbit
radius) after each call stays within `[-1.5, 1.5]`. -/
theorem camera_orbit_pitch_clamped (cam : Camera) (l : List (ℝ × ℝ))
    (yaw pitch : ℝ) (h : cam.eye ≠ cam.center) :
    -(3/2) ≤ pitchAngle ((orbitSeq cam l).orbit yaw pitch) ∧
    pitchAngle ((orbitSeq cam l).orbit yaw pitch) ≤ 3/2 := by
  have hne := orbitSeq_eye_ne_center cam l h
  rw [orbit_pitchAngle _ yaw pitch hne]
  unfold rclamp
  exact ⟨le_min (le_max_right _ _) (by norm_num), min_le_right _ _⟩

/-- Witness for C7 at a concrete camera and a two-call sequence. -/
theorem camera_orbit_pitch_clamped_witness :
    -(3/2) ≤ pitchAngle ((orbitSeq (Camera.new ⟨1, 0, 0⟩ ⟨0, 0, 0⟩ ⟨0, 1, 0⟩)
        [(0, 100)]).orbit 0 (-200)) ∧
    pitchAngle ((orbitSeq (Camera.new ⟨1, 0, 0⟩ ⟨0, 0, 0⟩ ⟨0, 1, 0⟩)
        [(0, 100)]).orbit 0 (-200)) ≤ 3/2 :=
  camera_orbit_pitch_clamped (Camera.new ⟨1, 0, 0⟩ ⟨0, 0, 0⟩ ⟨0, 1, 0⟩)
    [(0, 100)] 0 (-200) (fun h => one_ne_zero (congrArg Vec3R.x h))

/-- C8: an empty primitive list yields a BVH with no nodes, and
`BVH::intersect` on it returns the empty `Intersect` for every ray and
object list. -/
theorem bvh_empty_scene_miss :
    (BVH.build []).nodes = [] ∧
    ∀ (o d : Vec3) (objs : List Obj),
      BVH.intersect (BVH.build []) o d objs = Intersect.empty := by
  refine ⟨rfl, fun o d objs => rfl⟩

/-- C4 counterexample: the box `[0,1]³` with a ray whose origin lies on
the `x = 0` face and whose direction is `(0,0,1)`: the ray runs inside
the closed box (already at `t = 0`), yet the `f32` slab test computes
`0 · ∞ = NaN` for the near x-slab, Rust `min` drops the NaN to `+∞`,
`tmin` becomes `+∞ > tmax`, and the test reports a miss. -/
theorem aabb_intersect_zero_dir_cex :
    AABB.intersectF ⟨⟨0, 0, 0⟩, ⟨1, 1, 1⟩⟩ ⟨0, 1/2, 1/2⟩ ⟨0, 0, 1⟩ = false ∧
    analyticallyHits ⟨⟨0, 0, 0⟩, ⟨1, 1, 1⟩⟩ ⟨0, 1/2, 1/2⟩ ⟨0, 0, 1⟩ ∧
    ((0 : ℚ) ≤ 1 ∧ (0 : ℚ) ≤ 1 ∧ (0 : ℚ) ≤ 1) := by
  refine ⟨?_, ⟨0, by norm_num, ?_⟩, by norm_num⟩
  · norm_num [AABB.intersectF, F.finv, F.fmul, F.fmin, F.fmax, F.fge0, F.fle]
  · norm_num [inAABB, rayAt, Vec3.add, Vec3.smul]

theorem slab_axis (m M oc dc t : ℚ) (hd : dc ≠ 0) (hmM : m ≤ M) :
    (m ≤ oc + dc * t ∧ oc + dc * t ≤ M) ↔
    (Min.min ((m - oc) * dc⁻¹) ((M - oc) * dc⁻¹) ≤ t ∧
     t ≤ Max.max ((m - oc) * dc⁻¹) ((M - oc) * dc⁻¹)) := by
  rcases hd.lt_or_lt with hneg | hpos
  · have h1 : (M - oc) * dc⁻¹ ≤ (m - oc) * dc⁻¹ :=
      mul_le_mul_of_nonpos_right (by linarith) (inv_nonpos.mpr hneg.le)
    rw [min_eq_right h1, max_eq_left h1, ← div_eq_mul_inv, ← div_eq_mul_inv,
      div_le_iff_of_neg hneg, le_div_iff_of_neg hneg]
    constructor
    · rintro ⟨ha, hb⟩
      exact ⟨by nlinarith, by nlinarith⟩
    · rintro ⟨ha, hb⟩
      exact ⟨by nlinarith, by nlinarith⟩
  · have h1 : (m - oc) * dc⁻¹ ≤ (M - oc) * dc⁻¹ :=
      mul_le_mul_of_nonneg_right (by linarith) (inv_nonneg.mpr hpos.le)
    rw [min_eq_left h1, max_eq_right h1, ← div_eq_mul_inv, ← div_eq_mul_inv,
      div_le_iff₀ hpos, le_div_iff₀ hpos]
    constructor
    · rintro ⟨ha, hb⟩
      exact ⟨by nlinarith, by nlinarith⟩
    · rintro ⟨ha, hb⟩
      exact ⟨by nlinarith, by nlinarith⟩

/-- C4 amended: for every AABB with `min ≤ max` componentwise and every
ray whose direction components are all nonzero (so no infinities arise
and exact arithmetic is faithful), the slab test returns true iff the
ray analytically meets the closed box at some `t ≥ 0`. -/
theorem aabb_intersect_slab_correct (a : AABB) (o d : Vec3)
    (hx : d.x ≠ 0) (hy : d.y ≠ 0) (hz : d.z ≠ 0)
    (hbx : a.min.x ≤ a.max.x) (hby : a.min.y ≤ a.max.y)
    (hbz : a.min.z ≤ a.max.z) :
    AABB.intersect a o d = true ↔ analyticallyHits a o d := by
  have axX := fun t => slab_axis a.min.x a.max.x o.x d.x t hx hbx
  have axY := fun t => slab_axis a.min.y a.max.y o.y d.y t hy hby
  have axZ := fun t => slab_axis a.min.z a.max.z o.z d.z t hz hbz
  unfold AABB.intersect analyticallyHits inAABB rayAt
  simp only [decide_eq_true_eq, Vec3.add, Vec3.smul]
  set A1 := Min.min ((a.min.x - o.x) * d.x⁻¹) ((a.max.x - o.x) * d.x⁻¹) with hA1
  set A2 := Min.min ((a.min.y - o.y) * d.y⁻¹) ((a.max.y - o.y) * d.y⁻¹) with hA2
  set A3 := Min.min ((a.min.z - o.z) * d.z⁻¹) ((a.max.z - o.z) * d.z⁻¹) with hA3
  set B1 := Max.max ((a.min.x - o.x) * d.x⁻¹) ((a.max.x - o.x) * d.x⁻¹) with hB1
  set B2 := Max.max ((a.min.y - o.y) * d.y⁻¹) ((a.max.y - o.y) * d.y⁻¹) with hB2
  set B3 := Max.max ((a.min.z - o.z) * d.z⁻¹) ((a.max.z - o.z) * d.z⁻¹) with hB3
  have hminB1 : Min.min (Min.min B1 B2) B3 ≤ B1 :=
    le_trans (min_le_left _ _) (min_le_left _ _)
  have hminB2 : Min.min (Min.min B1 B2) B3 ≤ B2 :=
    le_trans (min_le_left _ _) (min_le_right _ _)
  have hminB3 : Min.min (Min.min B1 B2) B3 ≤ B3 := min_le_right _ _
  have hmaxA1 : A1 ≤ Max.max (Max.max A1 A2) A3 :=
    le_trans (le_max_left _ _) (le_max_left _ _)
  have hmaxA2 : A2 ≤ Max.max (Max.max A1 A2) A3 :=
    le_trans (le_max_right _ _) (le_max_left _ _)
  have hmaxA3 : A3 ≤ Max.max (Max.max A1 A2) A3 := le_max_right _ _
  constructor
  · rintro ⟨h0, hmm⟩
    refine ⟨Max.max (Max.max (Max.max A1 A2) A3) 0, le_max_right _ _, ?_⟩
    have hTB1 : Max.max (Max.max (Max.max A1 A2) A3) 0 ≤ B1 :=
      max_le (le_trans hmm hminB1) (le_trans h0 hminB1)
    have hTB2 : Max.max (Max.max (Max.max A1 A2) A3) 0 ≤ B2 :=
      max_le (le_trans hmm hminB2) (le_trans h0 hminB2)
    have hTB3 : Max.max (Max.max (Max.max A1 A2) A3) 0 ≤ B3 :=
      max_le (le_trans hmm hminB3) (le_trans h0 hminB3)
    obtain ⟨c1, c2⟩ := (axX _).mpr ⟨le_trans hmaxA1 (le_max_left _ _), hTB1⟩
    obtain ⟨c3, c4⟩ := (axY _).mpr ⟨le_trans hmaxA2 (le_max_left _ _), hTB2⟩
    obtain ⟨c5, c6⟩ := (axZ _).mpr ⟨le_trans hmaxA3 (le_max_left _ _), hTB3⟩
    exact ⟨c1, c2, c3, c4, c5, c6⟩
  · rintro ⟨t, ht, p1, p2, p3, p4, p5, p6⟩
    obtain ⟨q1, q2⟩ := (axX t).mp ⟨p1, p2⟩
    obtain ⟨q3, q4⟩ := (axY t).mp ⟨p3, p4⟩
    obtain ⟨q5, q6⟩ := (axZ t).mp ⟨p5, p6⟩
    constructor
    · exact le_min (le_min (le_trans ht q2) (le_trans ht q4)) (le_trans ht q6)
    · exact max_le
        (max_le (le_min (le_min (le_trans q1 q2) (le_trans q1 q4)) (le_trans q1 q6))
          (le_min (le_min (le_trans q3 q2) (le_trans q3 q4)) (le_trans q3 q6)))
        (le_min (le_min (le_trans q5 q2) (le_trans q5 q4)) (le_trans q5 q6))

/-- Witness for the amended C4 at a concrete box and a diagonal ray. -/
theorem aabb_intersect_slab_correct_witness :
    AABB.intersect ⟨⟨0, 0, 0⟩, ⟨1, 1, 1⟩⟩ ⟨-1, -1, -1⟩ ⟨1, 1, 1⟩ = true ↔
      analyticallyHits ⟨⟨0, 0, 0⟩, ⟨1, 1, 1⟩⟩ ⟨-1, -1, -1⟩ ⟨1, 1, 1⟩ :=
  aabb_intersect_slab_correct ⟨⟨0, 0, 0⟩, ⟨1, 1, 1⟩⟩ ⟨-1, -1, -1⟩ ⟨1, 1, 1⟩
    (by norm_num) (by norm_num) (by norm_num) (by norm_num) (by norm_num)
    (by norm_num)

/-- C5: `Cube::ray_intersect` slab policy — with a non-empty slab
interval whose exit is `tmax ≥ 0` the reported distance is `tmin` when
`tmin > 0` and `tmax` otherwise (origin inside the cube); an empty
interval, or one entirely behind the origin, reports no intersection. -/
theorem cube_ray_intersect_numeric_policy (c : Cube) (o d : Vec3)
    (_hx : d.x ≠ 0) (_hy : d.y ≠ 0) (_hz : d.z ≠ 0) :
    (Cube.tmaxOf c o d < 0 ∨ Cube.tminOf c o d > Cube.tmaxOf c o d →
      c.ray_intersect o d = Intersect.empty) ∧
    (0 ≤ Cube.tmaxOf c o d → Cube.tminOf c o d ≤ Cube.tmaxOf c o d →
      (c.ray_intersect o d).is_intersecting = true ∧
      (c.ray_intersect o d).distance =
        (if 0 < Cube.tminOf c o d then Cube.tminOf c o d else Cube.tmaxOf c o d)) := by
  constructor
  · intro h
    unfold Cube.ray_intersect
    rw [if_pos h]
  · intro h0 hle
    by_cases htm : 0 < Cube.tminOf c o d
    · constructor <;>
        simp [Cube.ray_intersect, htm, not_lt.mpr htm.le, not_lt.mpr h0,
          not_lt.mpr hle, Intersect.mk']
    · constructor <;>
        simp [Cube.ray_intersect, htm, not_lt.mpr h0, not_lt.mpr hle,
          Intersect.mk']

/-- Witness for C5: unit-radius cube at the origin hit from `x = 5`. -/
theorem cube_ray_intersect_numeric_policy_witness :
    (Cube.tmaxOf (Cube.new ⟨0, 0, 0⟩ 2 Material.black) ⟨5, 1/10, 1/10⟩ ⟨-1, -1/100, -1/100⟩ < 0 ∨
     Cube.tminOf (Cube.new ⟨0, 0, 0⟩ 2 Material.black) ⟨5, 1/10, 1/10⟩ ⟨-1, -1/100, -1/100⟩ >
       Cube.tmaxOf (Cube.new ⟨0, 0, 0⟩ 2 Material.black) ⟨5, 1/10, 1/10⟩ ⟨-1, -1/100, -1/100⟩ →
      (Cube.new ⟨0, 0, 0⟩ 2 Material.black).ray_intersect ⟨5, 1/10, 1/10⟩ ⟨-1, -1/100, -1/100⟩ =
        Intersect.empty) ∧
    (0 ≤ Cube.tmaxOf (Cube.new ⟨0, 0, 0⟩ 2 Material.black) ⟨5, 1/10, 1/10⟩ ⟨-1, -1/100, -1/100⟩ →
     Cube.tminOf (Cube.new ⟨0, 0, 0⟩ 2 Material.black) ⟨5, 1/10, 1/10⟩ ⟨-1, -1/100, -1/100⟩ ≤
       Cube.tmaxOf (Cube.new ⟨0, 0, 0⟩ 2 Material.black) ⟨5, 1/10, 1/10⟩ ⟨-1, -1/100, -1/100⟩ →
      ((Cube.new ⟨0, 0, 0⟩ 2 Material.black).ray_intersect ⟨5, 1/10, 1/10⟩
          ⟨-1, -1/100, -1/100⟩).is_intersecting = true ∧
      ((Cube.new ⟨0, 0, 0⟩ 2 Material.black).ray_intersect ⟨5, 1/10, 1/10⟩
          ⟨-1, -1/100, -1/100⟩).distance =
        (if 0 < Cube.tminOf (Cube.new ⟨0, 0, 0⟩ 2 Material.black) ⟨5, 1/10, 1/10⟩
            ⟨-1, -1/100, -1/100⟩ then
          Cube.tminOf (Cube.new ⟨0, 0, 0⟩ 2 Material.black) ⟨5, 1/10, 1/10⟩ ⟨-1, -1/100, -1/100⟩
        else
          Cube.tmaxOf (Cube.new ⟨0, 0, 0⟩ 2 Material.black) ⟨5, 1/10, 1/10⟩
            ⟨-1, -1/100, -1/100⟩)) :=
  cube_ray_intersect_numeric_policy (Cube.new ⟨0, 0, 0⟩ 2 Material.black)
    ⟨5, 1/10, 1/10⟩ ⟨-1, -1/100, -1/100⟩ (by norm_num) (by norm_num) (by norm_num)

/-- C10: whenever `Cube::ray_intersect` reports an intersection, the
surface normal is one of the six axis-aligned unit vectors (so in
particular it has exactly unit length), chosen by the epsilon-0.001
face-proximity chain with `(0,0,-1)` as the final default. -/
theorem cube_normal_axis_aligned (c : Cube) (o d : Vec3)
    (h : (c.ray_intersect o d).is_intersecting = true) :
    ((c.ray_intersect o d).normal = ⟨1, 0, 0⟩ ∨
     (c.ray_intersect o d).normal = ⟨-1, 0, 0⟩ ∨
     (c.ray_intersect o d).normal = ⟨0, 1, 0⟩ ∨
     (c.ray_intersect o d).normal = ⟨0, -1, 0⟩ ∨
     (c.ray_intersect o d).normal = ⟨0, 0, 1⟩ ∨
     (c.ray_intersect o d).normal = ⟨0, 0, -1⟩) ∧
    ((c.ray_intersect o d).normal).dot ((c.ray_intersect o d).normal) = 1 := by
  simp only [Cube.ray_intersect] at h ⊢
  split_ifs at h ⊢ <;>
    first
      | (simp only [Intersect.empty] at h; exact absurd h (by decide))
      | exact ⟨by simp [Intersect.mk'], by norm_num [Intersect.mk', Vec3.dot]⟩

/-- Witness for C10 at a cube and ray that do intersect. -/
theorem cube_normal_axis_aligned_witness :
    (((Cube.new ⟨0, 0, 0⟩ 2 Material.black).ray_intersect ⟨5, 1/10, 1/10⟩
        ⟨-1, -1/100, -1/100⟩).normal = ⟨1, 0, 0⟩ ∨
     ((Cube.new ⟨0, 0, 0⟩ 2 Material.black).ray_intersect ⟨5, 1/10, 1/10⟩
        ⟨-1, -1/100, -1/100⟩).normal = ⟨-1, 0, 0⟩ ∨
     ((Cube.new ⟨0, 0, 0⟩ 2 Material.black).ray_intersect ⟨5, 1/10, 1/10⟩
        ⟨-1, -1/100, -1/100⟩).normal = ⟨0, 1, 0⟩ ∨
     ((Cube.new ⟨0, 0, 0⟩ 2 Material.black).ray_intersect ⟨5, 1/10, 1/10⟩
        ⟨-1, -1/100, -1/100⟩).normal = ⟨0, -1, 0⟩ ∨
     ((Cube.new ⟨0, 0, 0⟩ 2 Material.black).ray_intersect ⟨5, 1/10, 1/10⟩
        ⟨-1, -1/100, -1/100⟩).normal = ⟨0, 0, 1⟩ ∨
     ((Cube.new ⟨0, 0, 0⟩ 2 Material.black).ray_intersect ⟨5, 1/10, 1/10⟩
        ⟨-1, -1/100, -1/100⟩).normal = ⟨0, 0, -1⟩) ∧
    (((Cube.new ⟨0, 0, 0⟩ 2 Material.black).ray_intersect ⟨5, 1/10, 1/10⟩
        ⟨-1, -1/100, -1/100⟩).normal).dot
      (((Cube.new ⟨0, 0, 0⟩ 2 Material.black).ray_intersect ⟨5, 1/10, 1/10⟩
        ⟨-1, -1/100, -1/100⟩).normal) = 1 :=
  cube_normal_axis_aligned (Cube.new ⟨0, 0, 0⟩ 2 Material.black) ⟨5, 1/10, 1/10⟩
    ⟨-1, -1/100, -1/100⟩
    (by norm_num [Cube.ray_intersect, Cube.new, Cube.tminOf, Cube.tmaxOf, Vec3.sub,
      Vec3.add, Vec3.smul, Intersect.mk'])

/-!  C1 concrete scene: two cubes on the x axis, viewed from `x = 10`
looking toward `-x`.  `build_recursive` pushes children before parents
(post-order), so node 0 is the first-created leaf — here the leaf of
the cube with the smaller center (cubeB) — while the root is the LAST
node.  `BVH::intersect` starts its traversal at node index 0, so the
whole traversal consists of that single leaf and every other primitive
is ignored. -/

def cubeA : Cube := Cube.new ⟨5, 0, 0⟩ 2 Material.black

def cubeB : Cube := Cube.new ⟨2, 0, 0⟩ 2 Material.black

def demoObjs : List Obj := [cubeA.toObj, cubeB.toObj]

def demoO : Vec3 := ⟨10, 1/2, 1/2⟩

def demoD : Vec3 := ⟨-1, -1/100, -1/100⟩

/-- The hit of `cubeA` (the nearer cube from `demoO`): distance 4. -/
def hitA : Intersect :=
  ⟨⟨6, 23/50, 23/50⟩, ⟨1, 0, 0⟩, 4, true, Material.black, 73/100, 73/100⟩

/-- The hit of `cubeB` (the farther cube from `demoO`): distance 7. -/
def hitB : Intersect :=
  ⟨⟨3, 43/100, 43/100⟩, ⟨1, 0, 0⟩, 7, true, Material.black, 143/200, 143/200⟩

theorem cubeA_hit_eval : cubeA.toObj.ray_intersect demoO demoD = hitA := by
  norm_num [cubeA, Cube.toObj, Cube.new, Cube.ray_intersect, Cube.tminOf,
    Cube.tmaxOf, Cube.get_uv, Cube.qclamp, Intersect.mk', Vec3.add, Vec3.sub,
    Vec3.smul, min_def, max_def, demoO, demoD, hitA]

theorem cubeB_hit_eval : cubeB.toObj.ray_intersect demoO demoD = hitB := by
  norm_num [cubeB, Cube.toObj, Cube.new, Cube.ray_intersect, Cube.tminOf,
    Cube.tmaxOf, Cube.get_uv, Cube.qclamp, Intersect.mk', Vec3.add, Vec3.sub,
    Vec3.smul, min_def, max_def, demoO, demoD, hitB]

theorem demo_build_eval : BVH.build demoObjs =
    ⟨[⟨⟨⟨1, -1, -1⟩, ⟨3, 1, 1⟩⟩, none, none, some 1⟩,
      ⟨⟨⟨4, -1, -1⟩, ⟨6, 1, 1⟩⟩, none, none, some 0⟩,
      ⟨⟨⟨1, -1, -1⟩, ⟨6, 1, 1⟩⟩, some 0, some 1, none⟩]⟩ := by
  norm_num [BVH.build, buildRec, sortByKey, insertByKey, demoObjs, cubeA, cubeB,
    Cube.toObj, Cube.get_bounds, Cube.new, AABB.union, AABB.center, Vec3.add,
    Vec3.sub, Vec3.smul, List.enum, List.enumFrom, min_def, max_def]

/-- C1 (code bug): on a two-cube scene, `BVH::build` followed by
`BVH::intersect` returns the hit of the FARTHER cube (distance 7),
while the brute-force linear scan returns the nearer hit (distance 4):
the traversal starts at node index 0, which after the post-order build
is a leaf, not the root, so only one primitive is ever tested. -/
theorem bvh_intersect_misses_nearest_hit :
    (cubeA.toObj.ray_intersect demoO demoD).is_intersecting = true ∧
    (cubeA.toObj.ray_intersect demoO demoD).distance = 4 ∧
    (bruteForce demoObjs demoO demoD).distance = 4 ∧
    (BVH.intersect (BVH.build demoObjs) demoO demoD demoObjs).distance = 7 ∧
    BVH.intersect (BVH.build demoObjs) demoO demoD demoObjs ≠
      bruteForce demoObjs demoO demoD := by
  have hA := cubeA_hit_eval
  have hB := cubeB_hit_eval
  have hbrute : bruteForce demoObjs demoO demoD = hitA := by
    simp only [bruteForce, demoObjs, List.foldl, hA, hB]
    norm_num [hitA, hitB, Intersect.empty]
  have hbvh : BVH.intersect (BVH.build demoObjs) demoO demoD demoObjs = hitB := by
    rw [demo_build_eval]
    simp only [BVH.intersect, intersectRec, demoObjs]
    norm_num [AABB.intersect, List.get?, Vec3.add, Vec3.sub, Vec3.smul,
      min_def, max_def, demoO, demoD, hitB, Intersect.empty, WithTop.coe_lt_top,
      lt_top_iff_ne_top, WithTop.ofNat_ne_top, ne_eq,
      cubeB, Cube.toObj, Cube.new, Cube.ray_intersect, Cube.tminOf, Cube.tmaxOf,
      Cube.get_uv, Cube.qclamp, Intersect.mk']
  refine ⟨by rw [hA]; rfl, by rw [hA]; rfl, by rw [hbrute]; rfl,
    by rw [hbvh]; rfl, ?_⟩
  rw [hbvh, hbrute]
  simp only [hitA, hitB, ne_eq, Intersect.mk.injEq]
  norm_num

theorem castRayCountF_le (env : MathEnv) (bvh : BVH) (objects : List Obj)
    (lights : List Light) :
    ∀ (fuel : ℕ) (o d : Vec3) (depth : ℕ),
      castRayCountF env bvh objects lights fuel o d depth ≤ fuel + 1 := by
  intro fuel
  induction fuel with
  | zero => intro o d depth; simp [castRayCountF]
  | succ n ih =>
    intro o d depth
    simp only [castRayCountF]
    split_ifs
    · omega
    · omega
    · have := ih (offset_origin (bvh.intersect o d objects)
        (env.normalize (reflect d (bvh.intersect o d objects).normal)))
        (env.normalize (reflect d (bvh.intersect o d objects).normal)) (depth + 1)
      omega
    · omega

/-- C3: `cast_ray` terminates for every input; as soon as `depth`
exceeds `MAX_DEPTH` it returns the sky color for the ray direction (for
every BVH and object list, i.e. without consulting them), and the
number of `cast_ray` invocations per primary ray (depth 0) is bounded
by `2 ^ MAX_DEPTH`. -/
theorem cast_ray_depth_bounded (env : MathEnv) (bvh : BVH) (objects : List Obj)
    (lights : List Light) (o d : Vec3) (depth : ℕ) :
    (MAX_DEPTH < depth →
      cast_ray env bvh objects lights o d depth =
        sky_color env d (decide (o.y < 0))) ∧
    cast_ray_count env bvh objects lights o d 0 ≤ 2 ^ MAX_DEPTH := by
  constructor
  · intro h
    unfold cast_ray
    rw [show MAX_DEPTH + 1 - depth = 0 from by omega]
    rfl
  · have := castRayCountF_le env bvh objects lights (MAX_DEPTH + 1 - 0) o d 0
    unfold cast_ray_count
    calc castRayCountF env bvh objects lights (MAX_DEPTH + 1 - 0) o d 0
        ≤ MAX_DEPTH + 1 - 0 + 1 := this
      _ ≤ 2 ^ MAX_DEPTH := by norm_num [MAX_DEPTH]

/-- A trivial concrete environment for witnesses. -/
def c3Env : MathEnv :=
  { normalize := fun v => v, length := fun _ => 0, powf := fun _ _ => 0,
    sample := fun _ _ _ => Vec3.zero }

/-- Witness for C3: at depth 3 (> MAX_DEPTH = 2) `cast_ray` is the sky
color, and the primary-ray count is within the bound. -/
theorem cast_ray_depth_bounded_witness :
    cast_ray c3Env (BVH.build []) [] [] ⟨0, 0, 0⟩ ⟨1, 1, 1⟩ 3 =
      sky_color c3Env ⟨1, 1, 1⟩ (decide ((⟨0, 0, 0⟩ : Vec3).y < 0)) ∧
    cast_ray_count c3Env (BVH.build []) [] [] ⟨0, 0, 0⟩ ⟨1, 1, 1⟩ 0 ≤ 2 ^ MAX_DEPTH :=
  ⟨(cast_ray_depth_bounded c3Env (BVH.build []) [] [] ⟨0, 0, 0⟩ ⟨1, 1, 1⟩ 3).1
      (by norm_num [MAX_DEPTH]),
   (cast_ray_depth_bounded c3Env (BVH.build []) [] [] ⟨0, 0, 0⟩ ⟨1, 1, 1⟩ 3).2⟩

/-- C6: the shadow intensity is the fixed constant `0.6` exactly when
the shadow ray from the normal-offset origin toward the light hits
something strictly closer than the light (else `0`), so the light's
intensity factor `1 - shadow` is `0.4` under occlusion and occlusion
never fully zeroes a light (the factor stays `≥ 0.4`). -/
theorem cast_shadow_partial_attenuation (env : MathEnv) (i : Intersect)
    (light : Light) (bvh : BVH) (objects : List Obj) :
    (cast_shadow env i light bvh objects = 6/10 ∨
     cast_shadow env i light bvh objects = 0) ∧
    (cast_shadow env i light bvh objects = 6/10 ↔
      ((bvh.intersect (offset_origin i (env.normalize (light.position.sub i.point)))
          (env.normalize (light.position.sub i.point)) objects).is_intersecting ∧
       (bvh.intersect (offset_origin i (env.normalize (light.position.sub i.point)))
          (env.normalize (light.position.sub i.point)) objects).distance <
         env.length (light.position.sub i.point))) ∧
    2/5 ≤ 1 - cast_shadow env i light bvh objects := by
  by_cases hc :
      ((bvh.intersect (offset_origin i (env.normalize (light.position.sub i.point)))
          (env.normalize (light.position.sub i.point)) objects).is_intersecting ∧
       (bvh.intersect (offset_origin i (env.normalize (light.position.sub i.point)))
          (env.normalize (light.position.sub i.point)) objects).distance <
         env.length (light.position.sub i.point))
  · refine ⟨Or.inl ?_, ?_, ?_⟩ <;> simp [cast_shadow, hc] <;> norm_num
  · refine ⟨Or.inr ?_, ?_, ?_⟩ <;> simp [cast_shadow, hc] <;> norm_num

/-- Replace the transparency of an intersection's material. -/
def setTransparencyI (t : ℚ) (i : Intersect) : Intersect :=
  { i with material := { i.material with transparency := t } }

/-- Replace the transparency on intersecting results only (a
non-intersecting result carries the sentinel black material, exactly as
a primitive whose own material was edited would still return the
untouched `Intersect::empty`). -/
def condSet (t : ℚ) (i : Intersect) : Intersect :=
  if i.is_intersecting then setTransparencyI t i else i

/-- The same primitive with its material's transparency replaced. -/
def setTransparencyObj (t : ℚ) (obj : Obj) : Obj :=
  { ray_intersect := fun o d => condSet t (obj.ray_intersect o d),
    get_bounds := obj.get_bounds }

theorem condSet_is_intersecting (t : ℚ) (i : Intersect) :
    (condSet t i).is_intersecting = i.is_intersecting := by
  by_cases h : i.is_intersecting <;> simp [condSet, setTransparencyI, h]

theorem condSet_distance (t : ℚ) (i : Intersect) :
    (condSet t i).distance = i.distance := by
  by_cases h : i.is_intersecting <;> simp [condSet, setTransparencyI, h]

theorem intersectRec_map (t : ℚ) (bvh : BVH) (objects : List Obj) (o d : Vec3) :
    ∀ (fuel idx : ℕ) (b : Intersect) (dist : WithTop ℚ),
      intersectRec bvh (objects.map (setTransparencyObj t)) o d fuel idx
          (condSet t b, dist) =
        (condSet t (intersectRec bvh objects o d fuel idx (b, dist)).1,
         (intersectRec bvh objects o d fuel idx (b, dist)).2) := by
  intro fuel
  induction fuel with
  | zero => intro idx b dist; rfl
  | succ n ih =>
    intro idx b dist
    simp only [intersectRec]
    cases hn : bvh.nodes.get? idx with
    | none => rfl
    | some node =>
      by_cases hbb : node.bounds.intersect o d
      · simp only [hbb, if_true]
        cases hoi : node.object_index with
        | some oi =>
          simp only []
          rw [List.get?_map]
          cases ho : objects.get? oi with
          | none => rfl
          | some obj =>
            simp only [Option.map_some]
            show (if ((setTransparencyObj t obj).ray_intersect o d).is_intersecting ∧
                ((((setTransparencyObj t obj).ray_intersect o d).distance : WithTop ℚ) < dist)
              then ((setTransparencyObj t obj).ray_intersect o d,
                    (((setTransparencyObj t obj).ray_intersect o d).distance : WithTop ℚ))
              else (condSet t b, dist)) = _
            have hri : (setTransparencyObj t obj).ray_intersect o d =
                condSet t (obj.ray_intersect o d) := rfl
            rw [hri]
            rw [condSet_is_intersecting, condSet_distance]
            by_cases hcond : (obj.ray_intersect o d).is_intersecting ∧
                (((obj.ray_intersect o d).distance : WithTop ℚ) < dist)
            · simp [hcond]
            · simp [hcond]
        | none =>
          simp only []
          cases hl : node.left with
          | none =>
            cases hr : node.right with
            | none => rfl
            | some r => exact ih r b dist
          | some l =>
            cases hr : node.right with
            | none => exact ih l b dist
            | some r =>
              simp only []
              rw [ih l b dist, ih r (intersectRec bvh objects o d n l (b, dist)).1
                (intersectRec bvh objects o d n l (b, dist)).2, Prod.mk.eta]
      · simp [hbb]

theorem bvh_intersect_map (t : ℚ) (bvh : BVH) (objects : List Obj) (o d : Vec3) :
    BVH.intersect bvh o d (objects.map (setTransparencyObj t)) =
      condSet t (BVH.intersect bvh o d objects) := by
  unfold BVH.intersect
  by_cases he : bvh.nodes.isEmpty
  · simp [he, condSet, Intersect.empty]
  · simp only [he, Bool.false_eq_true, if_false]
    have hce : condSet t Intersect.empty = Intersect.empty := by
      simp [condSet, Intersect.empty]
    calc (intersectRec bvh (objects.map (setTransparencyObj t)) o d
            (bvh.nodes.length + 1) 0 (Intersect.empty, (⊤ : WithTop ℚ))).1
        = (intersectRec bvh (objects.map (setTransparencyObj t)) o d
            (bvh.nodes.length + 1) 0 (condSet t Intersect.empty, (⊤ : WithTop ℚ))).1 := by
          rw [hce]
      _ = condSet t (intersectRec bvh objects o d
            (bvh.nodes.length + 1) 0 (Intersect.empty, (⊤ : WithTop ℚ))).1 := by
          rw [intersectRec_map]

theorem offset_origin_setTransparency (t : ℚ) (i : Intersect) (dir : Vec3) :
    offset_origin (setTransparencyI t i) dir = offset_origin i dir := rfl

theorem cast_shadow_map (t : ℚ) (env : MathEnv) (i : Intersect) (light : Light)
    (bvh : BVH) (objects : List Obj) :
    cast_shadow env (setTransparencyI t i) light bvh
        (objects.map (setTransparencyObj t)) =
      cast_shadow env i light bvh objects := by
  unfold cast_shadow
  have hpt : (setTransparencyI t i).point = i.point := rfl
  simp only [hpt, offset_origin_setTransparency, bvh_intersect_map,
    condSet_is_intersecting, condSet_distance]

theorem castRayF_map (t : ℚ) (env : MathEnv) (bvh : BVH) (objects : List Obj)
    (lights : List Light) :
    ∀ (fuel : ℕ) (o d : Vec3) (depth : ℕ),
      castRayF env bvh (objects.map (setTransparencyObj t)) lights fuel o d depth =
        castRayF env bvh objects lights fuel o d depth := by
  intro fuel
  induction fuel with
  | zero => intro o d depth; rfl
  | succ n ih =>
    intro o d depth
    simp only [castRayF]
    by_cases hd : MAX_DEPTH < depth
    · simp [hd]
    · simp only [hd, if_false]
      rw [bvh_intersect_map]
      set r := BVH.intersect bvh o d objects with hrdef
      by_cases hr : r.is_intersecting
      · have hcs : condSet t r = setTransparencyI t r := by simp [condSet, hr]
        rw [hcs]
        have hf1 : (setTransparencyI t r).point = r.point := rfl
        have hf2 : (setTransparencyI t r).normal = r.normal := rfl
        have hf3 : (setTransparencyI t r).u = r.u := rfl
        have hf4 : (setTransparencyI t r).v = r.v := rfl
        have hf5 : (setTransparencyI t r).material.texture_path =
          r.material.texture_path := rfl
        have hf6 : (setTransparencyI t r).material.diffuse = r.material.diffuse := rfl
        have hf7 : (setTransparencyI t r).material.emissive = r.material.emissive := rfl
        have hf8 : (setTransparencyI t r).material.albedo0 = r.material.albedo0 := rfl
        have hf9 : (setTransparencyI t r).material.albedo1 = r.material.albedo1 := rfl
        have hf10 : (setTransparencyI t r).material.specular = r.material.specular := rfl
        have hf11 : (setTransparencyI t r).material.reflectivity =
          r.material.reflectivity := rfl
        have hf12 : (setTransparencyI t r).is_intersecting = r.is_intersecting := rfl
        have hsh : ∀ light, cast_shadow env (setTransparencyI t r) light bvh
            (objects.map (setTransparencyObj t)) = cast_shadow env r light bvh objects :=
          fun light => cast_shadow_map t env r light bvh objects
        simp only [hf1, hf2, hf3, hf4, hf5, hf6, hf7, hf8, hf9, hf10, hf11, hf12,
          offset_origin_setTransparency, hsh, ih]
      · have hcs : condSet t r = r := by simp [condSet, hr]
        rw [hcs]
        simp only [Bool.not_eq_true] at hr
        simp [hr]

/-- C2 amended: `cast_ray` never reads `Material::transparency` — its
result is unchanged when every primitive's material transparency is
replaced by an arbitrary value; there is no refraction branch in
`cast_ray`. -/
theorem cast_ray_transparency_independent (t : ℚ) (env : MathEnv) (bvh : BVH)
    (objects : List Obj) (lights : List Light) (o d : Vec3) (depth : ℕ) :
    cast_ray env bvh (objects.map (setTransparencyObj t)) lights o d depth =
      cast_ray env bvh objects lights o d depth :=
  castRayF_map t env bvh objects lights (MAX_DEPTH + 1 - depth) o d depth

/-!  C2 concrete scene: a single fully transparent primitive directly
in front of the ray, an environment whose `normalized` stand-in is a
constant (making the sky color one fixed value for every direction),
no lights, and an emissive material making the local color nonzero. -/

def c2Env : MathEnv :=
  { normalize := fun _ => Vec3.zero, length := fun v => v.x + v.y + v.z,
    powf := fun _ _ => 0, sample := fun _ _ _ => Vec3.zero }

/-- A fully transparent, emissive, non-reflective material. -/
def c2Mat : Material :=
  { diffuse := Vec3.zero, albedo0 := 0, albedo1 := 0, specular := 0,
    transparency := 1, reflectivity := 0, emissive := ⟨1, 1, 1⟩,
    texture_path := none }

/-- A primitive hit by every ray whose origin has `z > 0` (hit point on
its far face, unit distance bounds), missed from `z ≤ 0`: a refracted
continuation ray, which would start just inside the surface at
`z = -1.0001`, escapes to the sky. -/
def c2Obj : Obj :=
  { ray_intersect := fun o _ =>
      if 0 < o.z then Intersect.mk' ⟨0, 0, -1⟩ ⟨0, 0, 1⟩ 6 c2Mat 0 0
      else Intersect.empty,
    get_bounds := ⟨⟨-1, -1, -1⟩, ⟨1, 1, 1⟩⟩ }

def c2Objs : List Obj := [c2Obj]

def c2O : Vec3 := ⟨1/10, 0, 5⟩

def c2D : Vec3 := ⟨-1/100, -1/100, -1⟩

theorem c2_build_eval : BVH.build c2Objs =
    ⟨[⟨⟨⟨-1, -1, -1⟩, ⟨1, 1, 1⟩⟩, none, none, some 0⟩]⟩ := by
  norm_num [BVH.build, buildRec, c2Objs, c2Obj, AABB.union, List.enum,
    List.enumFrom, min_def, max_def]

theorem c2_bvh_hit_eval : BVH.intersect (BVH.build c2Objs) c2O c2D c2Objs =
    ⟨⟨0, 0, -1⟩, ⟨0, 0, 1⟩, 6, true, c2Mat, 0, 0⟩ := by
  rw [c2_build_eval]
  simp only [BVH.intersect, intersectRec]
  norm_num [AABB.intersect, List.get?, c2Objs, c2Obj, c2O, c2D, Vec3.add,
    Vec3.sub, Vec3.smul, min_def, max_def, Intersect.mk', Intersect.empty,
    WithTop.coe_lt_top, lt_top_iff_ne_top, WithTop.ofNat_ne_top, ne_eq]

theorem c2_cast_eval :
    cast_ray c2Env (BVH.build c2Objs) c2Objs [] c2O c2D 0 = ⟨1/2, 1/2, 1/2⟩ := by
  simp only [cast_ray, MAX_DEPTH, Nat.sub_zero]
  simp only [castRayF]
  rw [c2_bvh_hit_eval]
  norm_num [c2Mat, c2Env, c2O, Vec3.zero, Vec3.add, Vec3.cmul, Vec3.smul,
    List.foldl, MAX_DEPTH]

theorem c2_refracted_eval :
    (fun dr => cast_ray c2Env (BVH.build c2Objs) c2Objs []
        ⟨0, 0, -(10001/10000)⟩ dr 1) = fun _ => (⟨9/20, 7/10, 7/10⟩ : Vec3) := by
  funext dr
  have hmiss : BVH.intersect (BVH.build c2Objs) ⟨0, 0, -(10001/10000)⟩ dr c2Objs =
      Intersect.empty := by
    rw [c2_build_eval]
    simp only [BVH.intersect, intersectRec]
    by_cases hb : AABB.intersect ⟨⟨-1, -1, -1⟩, ⟨1, 1, 1⟩⟩ ⟨0, 0, -(10001/10000)⟩ dr
    · norm_num [hb, List.get?, c2Objs, c2Obj, Intersect.empty]
    · norm_num [hb]
  have hfuel : MAX_DEPTH + 1 - 1 = 1 + 1 := by norm_num [MAX_DEPTH]
  simp only [cast_ray, hfuel]
  simp only [castRayF]
  rw [hmiss]
  norm_num [MAX_DEPTH, Intersect.empty, sky_color, c2Env, Vec3.zero, Vec3.add,
    Vec3.smul]

/-- C2 counterexample: a hit on a fully transparent material
(transparency 1, above any small threshold) at depth 0 (depth allows),
whose every refracted continuation would return the constant sky color
`(9/20, 7/10, 7/10)`; the claimed blend `final·(1−1) + refracted·1`
would therefore equal that sky color, but `cast_ray` actually returns
the purely local color `(1/2, 1/2, 1/2)`: there is no refraction branch
and transparency is never read. -/
theorem cast_ray_no_refraction_cex :
    c2Mat.transparency = 1 ∧
    (5/100 : ℚ) < 1 ∧
    0 < MAX_DEPTH ∧
    (BVH.intersect (BVH.build c2Objs) c2O c2D c2Objs).is_intersecting = true ∧
    (BVH.intersect (BVH.build c2Objs) c2O c2D c2Objs).material.transparency = 1 ∧
    cast_ray c2Env (BVH.build c2Objs) c2Objs [] c2O c2D 0 = ⟨1/2, 1/2, 1/2⟩ ∧
    ((fun dr => cast_ray c2Env (BVH.build c2Objs) c2Objs []
        ⟨0, 0, -(10001/10000)⟩ dr 1) = fun _ => (⟨9/20, 7/10, 7/10⟩ : Vec3)) ∧
    (⟨1/2, 1/2, 1/2⟩ : Vec3) ≠ ⟨9/20, 7/10, 7/10⟩ := by
  refine ⟨rfl, by norm_num, by norm_num [MAX_DEPTH], ?_, ?_, c2_cast_eval,
    c2_refracted_eval, ?_⟩
  · rw [c2_bvh_hit_eval]
  · rw [c2_bvh_hit_eval]
    rfl
  · simp only [ne_eq, Vec3.mk.injEq]
    norm_num

/-!  C6 concrete scene: the hit point sits at `x = 10` and the light at
`x = -10`; the (stand-in normalized) shadow direction slopes down in
`y` so the shadow ray passes through `cubeA` (x in [4,6]) but misses
`cubeB` (x in [1,3]).  The BVH shadow query starts and ends at node 0,
the leaf of `cubeB`, so the occluder `cubeA` is never consulted and no
shadow attenuation is applied. -/

def c6Env : MathEnv :=
  { normalize := fun _ => ⟨-1, -1/5, -1/100⟩, length := fun v => -v.x,
    powf := fun _ _ => 0, sample := fun _ _ _ => Vec3.zero }

def c6I : Intersect :=
  ⟨⟨10, 0, 0⟩, ⟨1, 0, 0⟩, 0, true, Material.black, 0, 0⟩

def c6Light : Light := ⟨⟨-10, 0, 0⟩, 255, 255, 255, 1⟩

/-- C6 counterexample: the shadow ray toward the light does intersect a
scene primitive (`cubeA`) strictly closer than the light, yet
`cast_shadow` returns `0` (no attenuation): its BVH query visits only
the node-0 leaf (`cubeB`). -/
theorem cast_shadow_misses_occluder_cex :
    (cubeA.toObj.ray_intersect
        (offset_origin c6I (c6Env.normalize (c6Light.position.sub c6I.point)))
        (c6Env.normalize (c6Light.position.sub c6I.point))).is_intersecting = true ∧
    (cubeA.toObj.ray_intersect
        (offset_origin c6I (c6Env.normalize (c6Light.position.sub c6I.point)))
        (c6Env.normalize (c6Light.position.sub c6I.point))).distance <
      c6Env.length (c6Light.position.sub c6I.point) ∧
    cubeA.toObj ∈ demoObjs ∧
    cast_shadow c6Env c6I c6Light (BVH.build demoObjs) demoObjs = 0 ∧
    (0 : ℚ) ≠ 6/10 := by
  have hdir : c6Env.normalize (c6Light.position.sub c6I.point) =
      ⟨-1, -1/5, -1/100⟩ := rfl
  have hoff : offset_origin c6I (⟨-1, -1/5, -1/100⟩ : Vec3) =
      ⟨99999/10000, 0, 0⟩ := by
    norm_num [offset_origin, c6I, ORIGIN_BIAS, Vec3.dot, Vec3.sub, Vec3.smul]
  have hhit_i : (cubeA.toObj.ray_intersect ⟨99999/10000, 0, 0⟩
      ⟨-1, -1/5, -1/100⟩).is_intersecting = true := by
    norm_num [cubeA, Cube.toObj, Cube.new, Cube.ray_intersect, Cube.tminOf,
      Cube.tmaxOf, Cube.get_uv, Cube.qclamp, Intersect.mk', Vec3.add, Vec3.sub,
      Vec3.smul, min_def, max_def]
  have hhit_d : (cubeA.toObj.ray_intersect ⟨99999/10000, 0, 0⟩
      ⟨-1, -1/5, -1/100⟩).distance = 39999/10000 := by
    norm_num [cubeA, Cube.toObj, Cube.new, Cube.ray_intersect, Cube.tminOf,
      Cube.tmaxOf, Cube.get_uv, Cube.qclamp, Intersect.mk', Vec3.add, Vec3.sub,
      Vec3.smul, min_def, max_def]
  have hlen : c6Env.length (c6Light.position.sub c6I.point) = 20 := by
    norm_num [c6Env, c6Light, c6I, Vec3.sub]
  have hshadow : cast_shadow c6Env c6I c6Light (BVH.build demoObjs) demoObjs = 0 := by
    simp only [cast_shadow]
    rw [hdir, hoff, demo_build_eval]
    simp only [BVH.intersect, intersectRec]
    norm_num [AABB.intersect, Intersect.empty, min_def, max_def]
  refine ⟨?_, ?_, ?_, hshadow, by norm_num⟩
  · rw [hdir, hoff, hhit_i]
  · rw [hdir, hoff, hhit_d, hlen]
    norm_num
  · simp [demoObjs]
